import Mathlib

set_option maxRecDepth 2000

/-!
Verification of the macro calculator service
(`backend/app/services/macro_calculator.py`).

The Python floats are embedded at two levels.  The main embedding uses
exact rationals (`ℚ`): every constant in the source is a short decimal
literal, and at each rounding site of the claims the IEEE-double chain and
the exact-rational chain round to the same integer, so that embedding is
faithful on the claims it serves; there `float(...)` is a partial decimal
parser returning `Option ℚ` (digit underscores outside the model).  A
second embedding (`PyFloat`) adds the IEEE special values: the `inf`,
`infinity` and `nan` words parse, decimal literals overflow to infinity at
the exact double threshold, arithmetic and comparisons follow IEEE special
value rules, and `round` raises on an infinity or nan — the raising path
the exception-freedom analysis needs.  Python strings are embedded as
`List Char`.  The Python `round` builtin is round-half-to-even, embedded as
`pyRound`.
-/

namespace Fuel

/-- Whitespace characters stripped by the Python `float` builtin and split on by
`str.split()` (ASCII subset). -/
def isSpace (c : Char) : Bool :=
  c == ' ' || c == '\t' || c == '\n' || c == '\r' ||
  c == Char.ofNat 11 || c == Char.ofNat 12

/-- The apostrophe character (feet marker in height strings). -/
def apostropheChar : Char := ⟨39, by decide⟩

/-- The double-quote character (inches marker in height strings). -/
def quoteChar : Char := ⟨34, by decide⟩

/-- Value of a list of decimal digit characters, most significant first. -/
def digitsVal (ds : List Char) : ℕ :=
  ds.foldl (fun a c => a * 10 + (c.toNat - 48)) 0

/-- Read an optional leading sign; `true` means negative. -/
def readSign : List Char → Bool × List Char
  | '+' :: r => (false, r)
  | '-' :: r => (true, r)
  | s => (false, s)

/-- Read the exponent part following a float mantissa: either nothing, or
`e`/`E`, an optional sign and a nonempty digit string consuming the rest. -/
def readExp : List Char → Option ℤ
  | [] => some 0
  | c :: r =>
    if c == 'e' || c == 'E' then
      let sr := readSign r
      let ds := sr.2.takeWhile Char.isDigit
      let rest := sr.2.dropWhile Char.isDigit
      if ds = [] ∨ rest ≠ [] then none
      else some (if sr.1 then -(digitsVal ds : ℤ) else (digitsVal ds : ℤ))
    else none

/-- Embedding of the Python `float(s)` builtin on finite decimal literals: strip
whitespace, optional sign, digits with optional fractional part (at least
one digit overall), optional exponent.  `none` is a `ValueError`. -/
def pyFloat? (s : List Char) : Option ℚ :=
  let t := ((s.dropWhile isSpace).reverse.dropWhile isSpace).reverse
  let sgn := readSign t
  let ipart := sgn.2.takeWhile Char.isDigit
  let rest1 := sgn.2.dropWhile Char.isDigit
  let fr : List Char × List Char :=
    match rest1 with
    | '.' :: r => (r.takeWhile Char.isDigit, r.dropWhile Char.isDigit)
    | _ => ([], rest1)
  if ipart = [] ∧ fr.1 = [] then none
  else
    match readExp fr.2 with
    | none => none
    | some e =>
      let mantNum : ℕ := digitsVal (ipart ++ fr.1)
      let mantDen : ℕ := 10 ^ fr.1.length
      let base : ℚ := (mantNum : ℚ) / (mantDen : ℚ)
      let mag : ℚ :=
        if 0 ≤ e then base * ((10 ^ e.toNat : ℕ) : ℚ)
        else base / ((10 ^ (-e).toNat : ℕ) : ℚ)
      some (if sgn.1 then -mag else mag)

/-- Fuel-driven worker for `replaceAllL`; the fuel is structural so the
kernel can evaluate it (every call consumes at least one list element, so
`s.length` fuel always suffices). -/
def replaceAllAux (pat rep : List Char) : ℕ → List Char → List Char
  | 0, s => s
  | _ + 1, [] => []
  | fuel + 1, c :: rest =>
    if pat ≠ [] ∧ pat.isPrefixOf (c :: rest) then
      rep ++ replaceAllAux pat rep fuel ((c :: rest).drop pat.length)
    else
      c :: replaceAllAux pat rep fuel rest

/-- Embedding of the Python `str.replace(pat, rep)` method for nonempty `pat`:
replace every non-overlapping occurrence of `pat`, scanning left to
right. -/
def replaceAllL (pat rep s : List Char) : List Char :=
  replaceAllAux pat rep s.length s

/-- Fuel-driven worker for `splitWsL` (structural for the same reason). -/
def splitWsAux : ℕ → List Char → List (List Char)
  | 0, _ => []
  | _ + 1, [] => []
  | fuel + 1, c :: rest =>
    if isSpace c then splitWsAux fuel rest
    else (c :: rest.takeWhile (fun d => !isSpace d))
      :: splitWsAux fuel (rest.dropWhile (fun d => !isSpace d))

/-- Embedding of the Python `str.split()` method (no separator): split on runs of
whitespace, dropping empty pieces. -/
def splitWsL (s : List Char) : List (List Char) :=
  splitWsAux s.length s

/-- Embedding of the Python built-in `round` to an integer:
round half to even. -/
def pyRound (q : ℚ) : ℤ :=
  let f : ℤ := ⌊q⌋
  let r : ℚ := q - f
  if r < 1 / 2 then f
  else if 1 / 2 < r then f + 1
  else if f % 2 = 0 then f else f + 1

/-- `ACTIVITY_MULTIPLIERS` from the source: Sedentary, Light, Moderate,
Active, Very Active. -/
def ACTIVITY_MULTIPLIERS : List ℚ := [1.2, 1.375, 1.55, 1.725, 1.9]

/-- `PROTEIN_PER_LB.get(goal_index, 0.8)` from the source. -/
def PROTEIN_PER_LB_get (goal_index : ℤ) : ℚ :=
  if goal_index = 0 then 0.9
  else if goal_index = 1 then 0.8
  else if goal_index = 2 then 1.0
  else if goal_index = 3 then 0.7
  else 0.8

/-- `FAT_PERCENT.get(goal_index, 0.28)` from the source. -/
def FAT_PERCENT_get (goal_index : ℤ) : ℚ :=
  if goal_index = 0 then 0.28
  else if goal_index = 1 then 0.28
  else if goal_index = 2 then 0.25
  else if goal_index = 3 then 0.28
  else 0.28

/-- `adjustments.get(goal_index, 1.0)` from `calculate_target_calories`. -/
def calorie_adjustment (goal_index : ℤ) : ℚ :=
  if goal_index = 0 then 1.1
  else if goal_index = 1 then 1.2
  else if goal_index = 2 then 0.8
  else if goal_index = 3 then 1.0
  else 1.0

/-- `height_to_cm` from the source: try the centimeter branch (strip
`" cm"`/`"cm"`, parse, accept if `> 100`), else drop quote marks, turn apostrophes
into spaces, split, and read feet (and inches); parse failures yield 0.0. -/
def height_to_cm (height_text : List Char) : ℚ :=
  let cleaned_cm := replaceAllL ("cm".data) [] (replaceAllL (" cm".data) [] height_text)
  let firstPass : Option ℚ :=
    match pyFloat? cleaned_cm with
    | some cm_value => if 100 < cm_value then some cm_value else none
    | none => none
  match firstPass with
  | some cm_value => cm_value
  | none =>
    let cleaned := replaceAllL [apostropheChar] [' '] (replaceAllL [quoteChar] [] height_text)
    let parts := splitWsL cleaned
    if parts.length < 2 then
      match parts with
      | [] => (0 : ℚ) * 30.48
      | p :: _ =>
        match pyFloat? p with
        | some feet => feet * 30.48
        | none => 0
    else
      match parts with
      | p1 :: p2 :: _ =>
        match pyFloat? p1 with
        | some feet =>
          match pyFloat? p2 with
          | some inches => feet * 30.48 + inches * 2.54
          | none => 0
        | none => 0
      | _ => 0

/-- `lbs_to_kg` from the source. -/
def lbs_to_kg (lbs : ℤ) : ℚ := (lbs : ℚ) * 0.453592

/-- `calculate_bmr` from the source (Mifflin-St Jeor). -/
def calculate_bmr (weight_kg height_cm : ℚ) (age_years : ℤ) (is_male : Bool) : ℚ :=
  let base := 10 * weight_kg + 6.25 * height_cm - 5 * (age_years : ℚ)
  if is_male then base + 5 else base - 161

/-- `calculate_tdee` from the source. -/
def calculate_tdee (bmr : ℚ) (activity_index : ℤ) : ℚ :=
  let multiplier :=
    if 0 ≤ activity_index ∧ activity_index < 5 then
      ACTIVITY_MULTIPLIERS.getD activity_index.toNat 1.2
    else 1.2
  bmr * multiplier

/-- `calculate_target_calories` from the source. -/
def calculate_target_calories (tdee : ℚ) (goal_index : ℤ) : ℤ :=
  pyRound (tdee * calorie_adjustment goal_index)

/-- `calculate_macros` from the source; returns (protein, carbs, fat) in
grams.  Note carbs are computed from the UNROUNDED `fat_calories`. -/
def calculate_macros (target_calories : ℤ) (goal_index : ℤ) (weight_lbs : ℤ) :
    ℤ × ℤ × ℤ :=
  let protein_per_lb := PROTEIN_PER_LB_get goal_index
  let protein_grams := pyRound ((weight_lbs : ℚ) * protein_per_lb)
  let protein_calories := (protein_grams : ℚ) * 4.0
  let fat_percent := FAT_PERCENT_get goal_index
  let fat_calories := (target_calories : ℚ) * fat_percent
  let fat_grams := pyRound (fat_calories / 9.0)
  let carbs_calories := (target_calories : ℚ) - protein_calories - fat_calories
  let carbs_grams := max 0 (pyRound (carbs_calories / 4.0))
  (protein_grams, carbs_grams, fat_grams)

/-- The pipeline of `calculate_all_macros` once the height has been
converted: validity gate, else BMR, TDEE, target calories, macro split. -/
def macrosFromHeight (weight_lbs : ℤ) (height_cm : ℚ) (age_years : ℤ)
    (is_male : Bool) (activity_level_index goal_type_index : ℤ) :
    ℤ × ℤ × ℤ × ℤ :=
  let weight_kg := lbs_to_kg weight_lbs
  if weight_kg ≤ 0 ∨ height_cm ≤ 0 ∨ age_years ≤ 0 then (2000, 120, 200, 65)
  else
    let bmr := calculate_bmr weight_kg height_cm age_years is_male
    let tdee := calculate_tdee bmr activity_level_index
    let target_calories := calculate_target_calories tdee goal_type_index
    let pcf := calculate_macros target_calories goal_type_index weight_lbs
    (target_calories, pcf.1, pcf.2.1, pcf.2.2)

/-- `calculate_all_macros` from the source; returns
(calories, protein, carbs, fat). -/
def calculate_all_macros (weight_lbs : ℤ) (height_text : List Char)
    (age_years : ℤ) (is_male : Bool)
    (activity_level_index goal_type_index : ℤ) : ℤ × ℤ × ℤ × ℤ :=
  macrosFromHeight weight_lbs (height_to_cm height_text) age_years is_male
    activity_level_index goal_type_index

/-- Error raised by the Python `round` builtin on special float values:
`OverflowError` on an infinity, `ValueError` on a nan. -/
inductive PyErr : Type
  | overflowError : PyErr
  | valueError : PyErr
deriving DecidableEq

/-- A Python float for the raising-semantics analysis: an exact rational
for finite values (same granularity as the main embedding) plus the IEEE
special values positive infinity, negative infinity and nan. -/
inductive PyFloat : Type
  | finite : ℚ → PyFloat
  | inf : PyFloat
  | ninf : PyFloat
  | nan : PyFloat
deriving DecidableEq

/-- The exact overflow threshold of IEEE double round-to-nearest-even:
a real of magnitude at least `2^1024 - 2^970` becomes an infinity. -/
def overflowBound : ℚ := ((2 ^ 1024 : ℕ) : ℚ) - ((2 ^ 970 : ℕ) : ℚ)

/-- Classify an exact real result as a Python float: overflow to the
infinities, otherwise finite (finite rounding error stays unmodelled,
as in the main embedding). -/
def PyFloat.ofRat (q : ℚ) : PyFloat :=
  if overflowBound ≤ q then .inf
  else if q ≤ -overflowBound then .ninf
  else .finite q

/-- IEEE addition on Python floats (special values exact; finite results
as exact rationals with overflow). -/
def PyFloat.add : PyFloat → PyFloat → PyFloat
  | .nan, _ => .nan
  | _, .nan => .nan
  | .finite a, .finite b => .ofRat (a + b)
  | .finite _, .inf => .inf
  | .inf, .finite _ => .inf
  | .finite _, .ninf => .ninf
  | .ninf, .finite _ => .ninf
  | .inf, .inf => .inf
  | .ninf, .ninf => .ninf
  | .inf, .ninf => .nan
  | .ninf, .inf => .nan

/-- IEEE negation on Python floats. -/
def PyFloat.neg : PyFloat → PyFloat
  | .finite a => .finite (-a)
  | .inf => .ninf
  | .ninf => .inf
  | .nan => .nan

/-- IEEE subtraction on Python floats. -/
def PyFloat.sub (a b : PyFloat) : PyFloat := a.add b.neg

/-- IEEE multiplication on Python floats. -/
def PyFloat.mul : PyFloat → PyFloat → PyFloat
  | .nan, _ => .nan
  | _, .nan => .nan
  | .finite a, .finite b => .ofRat (a * b)
  | .finite a, .inf => if a = 0 then .nan else if a < 0 then .ninf else .inf
  | .inf, .finite b => if b = 0 then .nan else if b < 0 then .ninf else .inf
  | .finite a, .ninf => if a = 0 then .nan else if a < 0 then .inf else .ninf
  | .ninf, .finite b => if b = 0 then .nan else if b < 0 then .inf else .ninf
  | .inf, .inf => .inf
  | .ninf, .ninf => .inf
  | .inf, .ninf => .ninf
  | .ninf, .inf => .ninf

/-- IEEE division on Python floats.  A zero divisor would raise
`ZeroDivisionError` in Python; the source divides only by the constants
9.0 and 4.0, so that arm (returned here as nan) is unreachable. -/
def PyFloat.div : PyFloat → PyFloat → PyFloat
  | .nan, _ => .nan
  | _, .nan => .nan
  | .finite a, .finite b => if b = 0 then .nan else .ofRat (a / b)
  | .finite _, .inf => .finite 0
  | .finite _, .ninf => .finite 0
  | .inf, .finite b => if b < 0 then .ninf else .inf
  | .ninf, .finite b => if b < 0 then .inf else .ninf
  | .inf, .inf => .nan
  | .inf, .ninf => .nan
  | .ninf, .inf => .nan
  | .ninf, .ninf => .nan

/-- IEEE strict comparison: any comparison against nan is false. -/
def PyFloat.lt : PyFloat → PyFloat → Bool
  | .nan, _ => false
  | _, .nan => false
  | .finite a, .finite b => decide (a < b)
  | .ninf, .ninf => false
  | .ninf, _ => true
  | _, .ninf => false
  | .inf, _ => false
  | _, .inf => true

/-- IEEE non-strict comparison: any comparison against nan is false. -/
def PyFloat.le : PyFloat → PyFloat → Bool
  | .nan, _ => false
  | _, .nan => false
  | .finite a, .finite b => decide (a ≤ b)
  | .ninf, _ => true
  | _, .ninf => false
  | _, .inf => true
  | .inf, _ => false

/-- The Python `round` builtin on a float, with its raising semantics:
`OverflowError` on an infinity, `ValueError` on a nan, otherwise the
round-half-to-even integer. -/
def pyRoundE : PyFloat → Except PyErr ℤ
  | .finite q => Except.ok (pyRound q)
  | .inf => Except.error PyErr.overflowError
  | .ninf => Except.error PyErr.overflowError
  | .nan => Except.error PyErr.valueError

/-- The Python `float(s)` builtin including the special words: after the
optional sign, `inf`, `infinity` and `nan` (case-insensitive) parse to the
special values, and a decimal literal whose value reaches the double
overflow threshold parses to an infinity (e.g. `float("1e400")` is inf).
Digit underscores remain outside the model. -/
def pyFloatIeee? (s : List Char) : Option PyFloat :=
  let t := ((s.dropWhile isSpace).reverse.dropWhile isSpace).reverse
  let sgn := readSign t
  let low := sgn.2.map Char.toLower
  if low = "inf".data ∨ low = "infinity".data then
    some (if sgn.1 then .ninf else .inf)
  else if low = "nan".data then some .nan
  else
    let ipart := sgn.2.takeWhile Char.isDigit
    let rest1 := sgn.2.dropWhile Char.isDigit
    let fr : List Char × List Char :=
      match rest1 with
      | '.' :: r => (r.takeWhile Char.isDigit, r.dropWhile Char.isDigit)
      | _ => ([], rest1)
    if ipart = [] ∧ fr.1 = [] then none
    else
      match readExp fr.2 with
      | none => none
      | some e =>
        let mantNum : ℕ := digitsVal (ipart ++ fr.1)
        let mantDen : ℕ := 10 ^ fr.1.length
        let base : ℚ := (mantNum : ℚ) / (mantDen : ℚ)
        let mag : ℚ :=
          if 0 ≤ e then base * ((10 ^ e.toNat : ℕ) : ℚ)
          else base / ((10 ^ (-e).toNat : ℕ) : ℚ)
        some (PyFloat.ofRat (if sgn.1 then -mag else mag))

/-- `height_to_cm` over the special-value-aware floats.  The structure is
exactly that of `height_to_cm`; all `float` calls stay inside `try`
blocks, so this function is still total (the source never raises here),
but it can RETURN an infinity or a nan. -/
def height_to_cm_ieee (height_text : List Char) : PyFloat :=
  let cleaned_cm := replaceAllL ("cm".data) [] (replaceAllL (" cm".data) [] height_text)
  let firstPass : Option PyFloat :=
    match pyFloatIeee? cleaned_cm with
    | some cm_value => if PyFloat.lt (.finite 100) cm_value then some cm_value else none
    | none => none
  match firstPass with
  | some cm_value => cm_value
  | none =>
    let cleaned := replaceAllL [apostropheChar] [' '] (replaceAllL [quoteChar] [] height_text)
    let parts := splitWsL cleaned
    if parts.length < 2 then
      match parts with
      | [] => PyFloat.mul (.finite 0) (.finite 30.48)
      | p :: _ =>
        match pyFloatIeee? p with
        | some feet => PyFloat.mul feet (.finite 30.48)
        | none => .finite 0
    else
      match parts with
      | p1 :: p2 :: _ =>
        match pyFloatIeee? p1 with
        | some feet =>
          match pyFloatIeee? p2 with
          | some inches =>
            PyFloat.add (PyFloat.mul feet (.finite 30.48))
              (PyFloat.mul inches (.finite 2.54))
          | none => .finite 0
        | none => .finite 0
      | _ => .finite 0

/-- `calculate_all_macros` over the special-value-aware floats, with every
`round` call as a raising site (`pyRoundE`).  An infinity or nan height
passes the validity gate (`inf <= 0` and `nan <= 0` are both false in
Python), flows into BMR and TDEE, and makes `round` raise.  Int-to-float
conversion overflow on astronomically large `weight_lbs` is outside the
model. -/
def calculate_all_macros_ieee (weight_lbs : ℤ) (height_text : List Char)
    (age_years : ℤ) (is_male : Bool)
    (activity_level_index goal_type_index : ℤ) : Except PyErr (ℤ × ℤ × ℤ × ℤ) :=
  let weight_kg := PyFloat.mul (.finite (weight_lbs : ℚ)) (.finite 0.453592)
  let height_cm := height_to_cm_ieee height_text
  if PyFloat.le weight_kg (.finite 0) || PyFloat.le height_cm (.finite 0)
      || decide (age_years ≤ 0) then
    Except.ok (2000, 120, 200, 65)
  else
    let base := (PyFloat.mul (.finite 10) weight_kg
      |>.add (PyFloat.mul (.finite 6.25) height_cm))
      |>.sub (PyFloat.mul (.finite 5) (.finite (age_years : ℚ)))
    let bmr := if is_male then base.add (.finite 5) else base.sub (.finite 161)
    let multiplier : ℚ :=
      if 0 ≤ activity_level_index ∧ activity_level_index < 5 then
        ACTIVITY_MULTIPLIERS.getD activity_level_index.toNat 1.2
      else 1.2
    let tdee := PyFloat.mul bmr (.finite multiplier)
    match pyRoundE (PyFloat.mul tdee (.finite (calorie_adjustment goal_type_index))) with
    | Except.error e => Except.error e
    | Except.ok target_calories =>
      match pyRoundE (PyFloat.mul (.finite (weight_lbs : ℚ))
          (.finite (PROTEIN_PER_LB_get goal_type_index))) with
      | Except.error e => Except.error e
      | Except.ok protein_grams =>
        let fat_calories := PyFloat.mul (.finite (target_calories : ℚ))
          (.finite (FAT_PERCENT_get goal_type_index))
        match pyRoundE (PyFloat.div fat_calories (.finite 9.0)) with
        | Except.error e => Except.error e
        | Except.ok fat_grams =>
          let carbs_calories := (PyFloat.finite (target_calories : ℚ)
            |>.sub (.finite ((protein_grams : ℚ) * 4.0))) |>.sub fat_calories
          match pyRoundE (PyFloat.div carbs_calories (.finite 4.0)) with
          | Except.error e => Except.error e
          | Except.ok carbs_round =>
            Except.ok (target_calories, protein_grams, max 0 carbs_round, fat_grams)

/-- The height string 5 feet 10 inches, written with the apostrophe and
double-quote markers. -/
def height_5_10 : List Char := ['5', apostropheChar, '1', '0', quoteChar]

/-- The height string `"178 cm"`. -/
def height_178cm : List Char := ['1', '7', '8', ' ', 'c', 'm']

theorem isPrefixOf_self (l : List Char) : l.isPrefixOf l = true := by
  induction l with
  | nil => rfl
  | cons a t ih => simp [List.isPrefixOf, ih]

theorem replaceAllAux_of_head_notMem (c : Char) (p' rep : List Char) :
    ∀ (fuel : ℕ) (s : List Char), c ∉ s → replaceAllAux (c :: p') rep fuel s = s := by
  intro fuel s
  induction s generalizing fuel with
  | nil => intro _; cases fuel <;> rfl
  | cons a rest ih =>
    intro hmem
    have h1 : c ≠ a := fun h => hmem (h ▸ List.mem_cons_self a rest)
    have h2 : c ∉ rest := fun h => hmem (List.mem_cons_of_mem a h)
    cases fuel with
    | zero => rfl
    | succ f =>
      have hnot : ¬((c :: p') ≠ [] ∧ (c :: p').isPrefixOf (a :: rest) = true) := by
        rintro ⟨-, hpre⟩
        simp only [List.isPrefixOf, Bool.and_eq_true, beq_iff_eq] at hpre
        exact h1 hpre.1
      simp only [replaceAllAux]
      rw [if_neg hnot, ih f h2]

theorem replaceAllL_of_head_notMem (c : Char) (p' rep s : List Char) (h : c ∉ s) :
    replaceAllL (c :: p') rep s = s :=
  replaceAllAux_of_head_notMem c p' rep s.length s h

theorem replaceAllAux_append_pat (c : Char) (p' : List Char) :
    ∀ (s : List Char) (fuel : ℕ), s.length + 1 ≤ fuel → c ∉ s →
      replaceAllAux (c :: p') [] fuel (s ++ c :: p') = s := by
  intro s
  induction s with
  | nil =>
    intro fuel hf _
    cases fuel with
    | zero => omega
    | succ f =>
      simp only [List.nil_append, replaceAllAux]
      rw [if_pos ⟨by simp, isPrefixOf_self _⟩]
      rw [show (c :: p').drop (c :: p').length = [] from List.drop_length _]
      cases f <;> rfl
  | cons a s' ih =>
    intro fuel hf hmem
    have h1 : c ≠ a := fun h => hmem (h ▸ List.mem_cons_self a s')
    have h2 : c ∉ s' := fun h => hmem (List.mem_cons_of_mem a h)
    cases fuel with
    | zero => simp at hf
    | succ f =>
      have hnot : ¬((c :: p') ≠ [] ∧ (c :: p').isPrefixOf (a :: (s' ++ c :: p')) = true) := by
        rintro ⟨-, hpre⟩
        simp only [List.isPrefixOf, Bool.and_eq_true, beq_iff_eq] at hpre
        exact h1 hpre.1
      simp only [List.cons_append, replaceAllAux, List.append_eq]
      rw [if_neg hnot, ih f (by simp at hf; omega) h2]

theorem replaceAllL_append_pat (c : Char) (p' s : List Char) (h : c ∉ s) :
    replaceAllL (c :: p') [] (s ++ c :: p') = s := by
  unfold replaceAllL
  exact replaceAllAux_append_pat c p' s _ (by simp) h

theorem takeWhile_all (p : Char → Bool) :
    ∀ (t : List Char), (∀ c ∈ t, p c = true) → t.takeWhile p = t := by
  intro t
  induction t with
  | nil => intro _; rfl
  | cons a rest ih =>
    intro h
    simp only [List.takeWhile, h a (List.mem_cons_self a rest)]
    rw [ih fun c hc => h c (List.mem_cons_of_mem a hc)]

theorem dropWhile_all (p : Char → Bool) :
    ∀ (t : List Char), (∀ c ∈ t, p c = true) → t.dropWhile p = [] := by
  intro t
  induction t with
  | nil => intro _; rfl
  | cons a rest ih =>
    intro h
    simp only [List.dropWhile, h a (List.mem_cons_self a rest)]
    exact ih fun c hc => h c (List.mem_cons_of_mem a hc)

theorem takeWhile_append_stop (p : Char → Bool) (x : Char) (hx : p x = false) :
    ∀ (s t : List Char), (∀ c ∈ s, p c = true) → (s ++ x :: t).takeWhile p = s := by
  intro s t
  induction s with
  | nil => intro _; simp [List.takeWhile, hx]
  | cons a s' ih =>
    intro h
    simp only [List.cons_append, List.takeWhile, List.append_eq, h a (List.mem_cons_self a s')]
    rw [ih fun c hc => h c (List.mem_cons_of_mem a hc)]

theorem dropWhile_append_stop (p : Char → Bool) (x : Char) (hx : p x = false) :
    ∀ (s t : List Char), (∀ c ∈ s, p c = true) → (s ++ x :: t).dropWhile p = x :: t := by
  intro s t
  induction s with
  | nil => intro _; simp [List.dropWhile, hx]
  | cons a s' ih =>
    intro h
    simp only [List.cons_append, List.dropWhile, List.append_eq, h a (List.mem_cons_self a s')]
    exact ih fun c hc => h c (List.mem_cons_of_mem a hc)

theorem splitWsAux_single (t : List Char) :
    ∀ (fuel : ℕ), t.length ≤ fuel → t ≠ [] → (∀ c ∈ t, isSpace c = false) →
      splitWsAux fuel t = [t] := by
  cases t with
  | nil => intro fuel _ ht _; exact absurd rfl ht
  | cons a rest =>
    intro fuel hf _ hns
    cases fuel with
    | zero => simp at hf
    | succ f =>
      have ha : isSpace a = false := hns a (List.mem_cons_self a rest)
      simp only [splitWsAux, ha, Bool.false_eq_true, if_false]
      rw [takeWhile_all _ rest
        (fun c hc => by simp [hns c (List.mem_cons_of_mem a hc)])]
      rw [dropWhile_all _ rest
        (fun c hc => by simp [hns c (List.mem_cons_of_mem a hc)])]
      cases f <;> rfl

theorem splitWsAux_two (s t : List Char) :
    ∀ (fuel : ℕ), t.length + 2 ≤ fuel → s ≠ [] → t ≠ [] →
      (∀ c ∈ s, isSpace c = false) → (∀ c ∈ t, isSpace c = false) →
      splitWsAux fuel (s ++ ' ' :: t) = [s, t] := by
  cases s with
  | nil => intro fuel _ hs _ _ _; exact absurd rfl hs
  | cons a s' =>
    intro fuel hf _ ht0 hs hns
    cases fuel with
    | zero => omega
    | succ f =>
      have ha : isSpace a = false := hs a (List.mem_cons_self a s')
      have hsp : isSpace ' ' = true := by decide
      have hs' : ∀ c ∈ s', (fun d => !isSpace d) c = true :=
        fun c hc => by simp [hs c (List.mem_cons_of_mem a hc)]
      simp only [List.cons_append, splitWsAux, List.append_eq, ha, Bool.false_eq_true, if_false]
      rw [takeWhile_append_stop _ ' ' (by simp [hsp]) s' t hs']
      rw [dropWhile_append_stop _ ' ' (by simp [hsp]) s' t hs']
      cases f with
      | zero => omega
      | succ g =>
        simp only [splitWsAux, hsp, if_true]
        rw [splitWsAux_single t g (by omega) ht0 hns]

theorem splitWsL_two (s t : List Char) (hs0 : s ≠ []) (ht0 : t ≠ [])
    (hs : ∀ c ∈ s, isSpace c = false) (ht : ∀ c ∈ t, isSpace c = false) :
    splitWsL (s ++ ' ' :: t) = [s, t] := by
  unfold splitWsL
  apply splitWsAux_two s t _ _ hs0 ht0 hs ht
  cases s with
  | nil => exact absurd rfl hs0
  | cons a s' => simp only [List.length_append, List.length_cons]; omega

theorem pyRound_int_add_half (n : ℤ) :
    pyRound ((n : ℚ) + 1 / 2) = if n % 2 = 0 then n else n + 1 := by
  unfold pyRound
  have hfl : ⌊(n : ℚ) + 1 / 2⌋ = n := by
    rw [add_comm, Int.floor_add_int]
    norm_num
  have hr : ((n : ℚ) + 1 / 2) - (n : ℚ) = 1 / 2 := by ring
  dsimp only
  rw [hfl, hr]
  norm_num

theorem fallback_of_gate (w : ℤ) (h : ℚ) (a : ℤ) (m : Bool) (ai gi : ℤ)
    (hg : lbs_to_kg w ≤ 0 ∨ h ≤ 0 ∨ a ≤ 0) :
    macrosFromHeight w h a m ai gi = (2000, 120, 200, 65) := by
  unfold macrosFromHeight
  rw [if_pos hg]

theorem calculate_macros_carbs_eq (c gi w : ℤ) :
    (calculate_macros c gi w).2.1 =
      max 0 (pyRound (((c : ℚ) - ((calculate_macros c gi w).1 : ℚ) * 4.0
        - (c : ℚ) * FAT_PERCENT_get gi) / 4.0)) := rfl

theorem calculate_macros_fat_eq (c gi w : ℤ) :
    (calculate_macros c gi w).2.2 = pyRound ((c : ℚ) * FAT_PERCENT_get gi / 9.0) := rfl

theorem eval_h510 : height_to_cm height_5_10 = 177.8 := by
  with_unfolding_all decide

theorem eval_h178 : height_to_cm height_178cm = 178 := by
  with_unfolding_all decide

theorem eval_hempty : height_to_cm [] = 0 := by
  with_unfolding_all decide

theorem eval_raL : replaceAllL [' ', 'c', 'm'] [] ['6'] = ['6'] := by decide

theorem eval_rbL : replaceAllL ['c', 'm'] [] ['6'] = ['6'] := by decide

theorem eval_rc : replaceAllL [quoteChar] [] ['6'] = ['6'] := by decide

theorem eval_rd : replaceAllL [apostropheChar] [' '] ['6'] = ['6'] := by decide

theorem eval_sp6 : splitWsL ['6'] = [['6']] := by decide

theorem eval_pf6 : pyFloat? ['6'] = some 6 := by with_unfolding_all decide

theorem eval_h6 : height_to_cm ['6'] = 182.88 := by
  simp only [height_to_cm, eval_raL, eval_rbL, eval_rc, eval_rd, eval_pf6, eval_sp6]
  norm_num

theorem eval_pf95 : pyFloat? ['9', '5'] = some 95 := by with_unfolding_all decide

theorem eval_pfcm : pyFloat? ['c', 'm'] = none := by with_unfolding_all decide

theorem eval_main : calculate_all_macros 165 height_5_10 21 true 2 0 = (3000, 148, 392, 93) := by
  with_unfolding_all decide

theorem eval_claim2_rhs :
    max 0 (pyRound (((3000 : ℚ) - ((148 : ℤ) : ℚ) * 4.0 - ((93 : ℤ) : ℚ) * 9.0) / 4.0)) = 393 := by
  with_unfolding_all decide

/-- Claim C1, counterexample: on weight 165 lb, height 5 feet 10 inches,
age 21, male, activity index 2, goal index 0, `calculate_all_macros` does
NOT return the tuple (3004, 149, 393, 93) stated by the claim. -/
theorem claim1_cex :
    calculate_all_macros 165 height_5_10 21 true 2 0 ≠ (3004, 149, 393, 93) := by
  rw [eval_main]
  decide

/-- Claim C1, amended: on weight 165 lb, height 5 feet 10 inches, age 21,
male, activity index 2, goal index 0, `calculate_all_macros` returns
exactly (3000, 148, 392, 93): the BMR chain gives 1759.6768 (not the
1761.65 of the claim), so calories are 3000, and protein rounds half to
even, 148. -/
theorem claim1_amended :
    calculate_all_macros 165 height_5_10 21 true 2 0 = (3000, 148, 392, 93) :=
  eval_main

/-- Claim C2, counterexample: at the valid input of C1 the carbohydrate
output (392) differs from the claimed formula
max(0, round((calories - protein*4 - fat_grams*9)/4)), which yields 393:
the code subtracts the unrounded fat calories, not fat_grams*9. -/
theorem claim2_cex :
    ¬ ((calculate_all_macros 165 height_5_10 21 true 2 0).2.2.1 =
      max 0 (pyRound ((((calculate_all_macros 165 height_5_10 21 true 2 0).1 : ℚ)
        - ((calculate_all_macros 165 height_5_10 21 true 2 0).2.1 : ℚ) * 4.0
        - ((calculate_all_macros 165 height_5_10 21 true 2 0).2.2.2 : ℚ) * 9.0) / 4.0))) := by
  rw [eval_main]
  with_unfolding_all decide

/-- Claim C2, amended: for every input passing the validity gate, the
carbohydrate grams equal
max(0, round((calories - protein*4.0 - calories*fat_percent)/4.0)) where
the fat term is the unrounded `fat_calories = target_calories * fat_percent`
of the same call. -/
theorem claim2_amended (w : ℤ) (s : List Char) (a : ℤ) (m : Bool) (ai gi : ℤ)
    (h : ¬(lbs_to_kg w ≤ 0 ∨ height_to_cm s ≤ 0 ∨ a ≤ 0)) :
    (calculate_all_macros w s a m ai gi).2.2.1 =
      max 0 (pyRound ((((calculate_all_macros w s a m ai gi).1 : ℚ)
        - ((calculate_all_macros w s a m ai gi).2.1 : ℚ) * 4.0
        - ((calculate_all_macros w s a m ai gi).1 : ℚ) * FAT_PERCENT_get gi) / 4.0)) := by
  unfold calculate_all_macros macrosFromHeight
  rw [if_neg h]
  exact calculate_macros_carbs_eq _ _ _

/-- Claim C2, witness: the amended statement instantiated at the concrete
valid input of C1. -/
theorem claim2_witness :
    ¬(lbs_to_kg 165 ≤ 0 ∨ height_to_cm height_5_10 ≤ 0 ∨ (21 : ℤ) ≤ 0) ∧
    (calculate_all_macros 165 height_5_10 21 true 2 0).2.2.1 =
      max 0 (pyRound ((((calculate_all_macros 165 height_5_10 21 true 2 0).1 : ℚ)
        - ((calculate_all_macros 165 height_5_10 21 true 2 0).2.1 : ℚ) * 4.0
        - ((calculate_all_macros 165 height_5_10 21 true 2 0).1 : ℚ) * FAT_PERCENT_get 0) / 4.0)) := by
  have hvalid : ¬(lbs_to_kg 165 ≤ 0 ∨ height_to_cm height_5_10 ≤ 0 ∨ (21 : ℤ) ≤ 0) := by
    rw [eval_h510]
    norm_num [lbs_to_kg]
  exact ⟨hvalid, claim2_amended 165 height_5_10 21 true 2 0 hvalid⟩

/-- Claim C3: whenever the converted weight is at most 0, or the parsed
height is at most 0 (including the 0.0 unparseable sentinel), or the age is
at most 0, `calculate_all_macros` returns exactly the fixed fallback tuple
(2000, 120, 200, 65). -/
theorem claim3 (w : ℤ) (s : List Char) (a : ℤ) (m : Bool) (ai gi : ℤ)
    (h : lbs_to_kg w ≤ 0 ∨ height_to_cm s ≤ 0 ∨ a ≤ 0) :
    calculate_all_macros w s a m ai gi = (2000, 120, 200, 65) := by
  unfold calculate_all_macros
  exact fallback_of_gate w (height_to_cm s) a m ai gi h

/-- Claim C3, witness: the empty height string parses to 0, so the call
returns the fallback tuple. -/
theorem claim3_witness :
    (lbs_to_kg 165 ≤ 0 ∨ height_to_cm [] ≤ 0 ∨ (21 : ℤ) ≤ 0) ∧
    calculate_all_macros 165 [] 21 true 2 0 = (2000, 120, 200, 65) := by
  have h : lbs_to_kg 165 ≤ 0 ∨ height_to_cm [] ≤ 0 ∨ (21 : ℤ) ≤ 0 :=
    Or.inr (Or.inl (le_of_eq eval_hempty))
  exact ⟨h, claim3 165 [] 21 true 2 0 h⟩

/-- Claim C4, code-bug evidence: the engine is NOT exception-free.  The
string `"inf"` parses as a float, `inf > 100` returns it from the
centimeter branch of the height parser, the validity gate passes
(`inf <= 0` is false in Python), BMR and TDEE become infinite, and
`round(tdee * 1.1)` raises `OverflowError` to the caller instead of
degrading to a default. -/
theorem claim4_bug :
    pyFloatIeee? ("inf".data) = some PyFloat.inf ∧
    height_to_cm_ieee ("inf".data) = PyFloat.inf ∧
    calculate_all_macros_ieee 165 ("inf".data) 21 true 2 0 =
      Except.error PyErr.overflowError := by
  refine ⟨by with_unfolding_all decide, by with_unfolding_all decide, ?_⟩
  with_unfolding_all rfl

/-- Claim C5: the four stated height vectors: 5 feet 10 inches maps
within 0.01 of 177.8 (in the rational embedding, exactly); `"178 cm"` maps
to 178; the empty string maps to 0; a bare `"6"` is treated as feet and
maps to 182.88. -/
theorem claim5 :
    |height_to_cm height_5_10 - 177.8| ≤ 1 / 100 ∧
    height_to_cm height_178cm = 178 ∧
    height_to_cm [] = 0 ∧
    height_to_cm ['6'] = 182.88 := by
  refine ⟨?_, eval_h178, eval_hempty, eval_h6⟩
  rw [eval_h510]
  norm_num

/-- Claim C6: whenever stripping the `" cm"` and `"cm"` substrings
leaves text that parses as a float greater than 100, `height_to_cm` returns
that value directly. -/
theorem claim6 (s : List Char) (v : ℚ)
    (h : pyFloat? (replaceAllL ['c', 'm'] [] (replaceAllL [' ', 'c', 'm'] [] s)) = some v)
    (hv : 100 < v) : height_to_cm s = v := by
  simp only [height_to_cm]
  rw [h]
  simp [hv]

/-- Claim C6, witness: instantiated at the string `"178 cm"`. -/
theorem claim6_witness :
    pyFloat? (replaceAllL ['c', 'm'] [] (replaceAllL [' ', 'c', 'm'] [] height_178cm))
      = some 178 ∧
    (100 : ℚ) < 178 ∧ height_to_cm height_178cm = 178 := by
  have h : pyFloat? (replaceAllL ['c', 'm'] [] (replaceAllL [' ', 'c', 'm'] [] height_178cm))
      = some 178 := by
    with_unfolding_all decide
  have hv : (100 : ℚ) < 178 := by norm_num
  exact ⟨h, hv, claim6 height_178cm 178 h hv⟩

/-- Claim C7: for EVERY fixed choice of the other five arguments, an
out-of-range activity index behaves exactly like index 0 (multiplier 1.2);
and an out-of-range goal index uses the per-table defaults: protein 0.8
per lb, fat fraction 0.28, calorie adjustment 1.0. -/
theorem claim7 (w a : ℤ) (s : List Char) (m : Bool) (b : ℚ) (ai gi : ℤ)
    (h1 : ai < 0 ∨ 5 ≤ ai) :
    calculate_all_macros w s a m ai gi = calculate_all_macros w s a m 0 gi ∧
    calculate_tdee b ai = b * 1.2 ∧
    ((gi ≠ 0 ∧ gi ≠ 1 ∧ gi ≠ 2 ∧ gi ≠ 3) →
      PROTEIN_PER_LB_get gi = 0.8 ∧ FAT_PERCENT_get gi = 0.28 ∧
      calorie_adjustment gi = 1.0) := by
  have hna : ¬(0 ≤ ai ∧ ai < 5) := by omega
  have htd : ∀ x : ℚ, calculate_tdee x ai = x * 1.2 := by
    intro x
    unfold calculate_tdee
    rw [if_neg hna]
  have htd0 : ∀ x : ℚ, calculate_tdee x 0 = x * 1.2 := by
    intro x
    unfold calculate_tdee
    rw [if_pos (by omega)]
    norm_num [ACTIVITY_MULTIPLIERS]
  refine ⟨?_, htd b, fun h2 => ⟨?_, ?_, ?_⟩⟩
  · unfold calculate_all_macros macrosFromHeight
    simp only [htd, htd0]
  · simp [PROTEIN_PER_LB_get, h2.1, h2.2.1, h2.2.2.1, h2.2.2.2]
  · simp [FAT_PERCENT_get, h2.1, h2.2.1, h2.2.2.1, h2.2.2.2]
  · simp [calorie_adjustment, h2.1, h2.2.1, h2.2.2.1, h2.2.2.2]

/-- Claim C7, witness: activity index 99 against 0, once with the
in-range goal index 0 and once with the out-of-range goal index 99. -/
theorem claim7_witness :
    ((99 : ℤ) < 0 ∨ (5 : ℤ) ≤ 99) ∧
    calculate_all_macros 165 height_5_10 21 true 99 0 =
      calculate_all_macros 165 height_5_10 21 true 0 0 ∧
    calculate_all_macros 165 height_5_10 21 true 99 99 =
      calculate_all_macros 165 height_5_10 21 true 0 99 ∧
    PROTEIN_PER_LB_get 99 = 0.8 ∧ FAT_PERCENT_get 99 = 0.28 ∧
    calorie_adjustment 99 = 1.0 := by
  have h1 : (99 : ℤ) < 0 ∨ (5 : ℤ) ≤ 99 := Or.inr (by norm_num)
  have hA := claim7 165 21 height_5_10 true 2000 99 0 h1
  have hB := claim7 165 21 height_5_10 true 2000 99 99 h1
  have hdef := hB.2.2 (by decide)
  exact ⟨h1, hA.1, hB.1, hdef.1, hdef.2.1, hdef.2.2⟩

/-- Claim C8: on every input, the carbohydrate component of
`calculate_all_macros` is non-negative (clamped by `max 0`, and 200 in the
fallback tuple). -/
theorem claim8 (w : ℤ) (s : List Char) (a : ℤ) (m : Bool) (ai gi : ℤ) :
    0 ≤ (calculate_all_macros w s a m ai gi).2.2.1 := by
  unfold calculate_all_macros macrosFromHeight
  dsimp only
  by_cases hg : lbs_to_kg w ≤ 0 ∨ height_to_cm s ≤ 0 ∨ a ≤ 0
  · rw [if_pos hg]
    decide
  · rw [if_neg hg]
    dsimp only
    rw [calculate_macros_carbs_eq]
    exact le_max_left 0 _

/-- Claim C9: integer outputs are produced with round-half-to-even: at a
half-integer, `pyRound` picks the even neighbour; in particular protein for
weight 165 at goal 0 is round(148.5) = 148; and target calories, fat grams
and carb grams are all `pyRound` applications (carbs clamped by `max 0`),
so the same rounding mode governs every .5 tie. -/
theorem claim9 :
    (∀ n : ℤ, pyRound ((n : ℚ) + 1 / 2) = if n % 2 = 0 then n else n + 1) ∧
    (∀ c : ℤ, (calculate_macros c 0 165).1 = 148) ∧
    (∀ (t : ℚ) (gi : ℤ), calculate_target_calories t gi =
      pyRound (t * calorie_adjustment gi)) ∧
    (∀ c gi w : ℤ, (calculate_macros c gi w).2.2 =
      pyRound ((c : ℚ) * FAT_PERCENT_get gi / 9.0)) ∧
    (∀ c gi w : ℤ, (calculate_macros c gi w).2.1 =
      max 0 (pyRound (((c : ℚ) - ((calculate_macros c gi w).1 : ℚ) * 4.0
        - (c : ℚ) * FAT_PERCENT_get gi) / 4.0))) := by
  refine ⟨pyRound_int_add_half, ?_, fun t gi => rfl, fun c gi w => rfl,
    fun c gi w => calculate_macros_carbs_eq c gi w⟩
  intro c
  show pyRound (((165 : ℤ) : ℚ) * PROTEIN_PER_LB_get 0) = 148
  have h1 : ((165 : ℤ) : ℚ) * PROTEIN_PER_LB_get 0 = ((148 : ℤ) : ℚ) + 1 / 2 := by
    norm_num [PROTEIN_PER_LB_get]
  rw [h1, pyRound_int_add_half]
  norm_num

/-- Claim C10: for a number-then-space-then-cm height whose numeric value
is at most 100, the centimeter branch rejects the value and the feet/inches
branch fails on the literal token cm, so `height_to_cm` returns 0 and
`calculate_all_macros` returns the fallback tuple. -/
theorem claim10 (s : List Char) (v : ℚ)
    (hs : ∀ c ∈ s, isSpace c = false ∧ c ≠ 'c' ∧ c ≠ quoteChar ∧ c ≠ apostropheChar)
    (h : pyFloat? s = some v) (hv : v ≤ 100) :
    height_to_cm (s ++ [' ', 'c', 'm']) = 0 ∧
    ∀ (w a : ℤ) (m : Bool) (ai gi : ℤ),
      calculate_all_macros w (s ++ [' ', 'c', 'm']) a m ai gi = (2000, 120, 200, 65) := by
  have hs_space : ' ' ∉ s := by
    intro hmem
    have := (hs ' ' hmem).1
    simp [isSpace] at this
  have hs_c : 'c' ∉ s := fun hmem => (hs 'c' hmem).2.1 rfl
  have hq : quoteChar ∉ s ++ [' ', 'c', 'm'] := by
    intro hmem
    rcases List.mem_append.mp hmem with h' | h'
    · exact (hs quoteChar h').2.2.1 rfl
    · simp only [List.mem_cons, List.not_mem_nil, or_false] at h'
      rcases h' with h' | h' | h' <;> exact absurd h' (by decide)
  have hap : apostropheChar ∉ s ++ [' ', 'c', 'm'] := by
    intro hmem
    rcases List.mem_append.mp hmem with h' | h'
    · exact (hs apostropheChar h').2.2.2 rfl
    · simp only [List.mem_cons, List.not_mem_nil, or_false] at h'
      rcases h' with h' | h' | h' <;> exact absurd h' (by decide)
  have hsne : s ≠ [] := by
    rintro rfl
    rw [show pyFloat? ([] : List Char) = none from by with_unfolding_all decide] at h
    exact Option.noConfusion h
  have e1 : replaceAllL [' ', 'c', 'm'] [] (s ++ [' ', 'c', 'm']) = s :=
    replaceAllL_append_pat ' ' ['c', 'm'] s hs_space
  have e2 : replaceAllL ['c', 'm'] [] s = s :=
    replaceAllL_of_head_notMem 'c' ['m'] [] s hs_c
  have e3 : replaceAllL [quoteChar] [] (s ++ [' ', 'c', 'm']) = s ++ [' ', 'c', 'm'] :=
    replaceAllL_of_head_notMem quoteChar [] [] _ hq
  have e4 : replaceAllL [apostropheChar] [' '] (s ++ [' ', 'c', 'm']) = s ++ [' ', 'c', 'm'] :=
    replaceAllL_of_head_notMem apostropheChar [] [' '] _ hap
  have e5 : splitWsL (s ++ ' ' :: ['c', 'm']) = [s, ['c', 'm']] :=
    splitWsL_two s ['c', 'm'] hsne (by decide) (fun c hc => (hs c hc).1) (by decide)
  have hnlt : ¬(100 < v) := not_lt.mpr hv
  have hfirst : height_to_cm (s ++ [' ', 'c', 'm']) = 0 := by
    simp only [height_to_cm, e1, e2, e3, e4, e5, h, hnlt, eval_pfcm, if_false]
    simp [eval_pfcm]
  refine ⟨hfirst, fun w a m ai gi => ?_⟩
  unfold calculate_all_macros
  exact fallback_of_gate w _ a m ai gi (Or.inr (Or.inl (le_of_eq hfirst)))

/-- Claim C10, witness: instantiated at the string `"95 cm"`. -/
theorem claim10_witness :
    (∀ c ∈ ['9', '5'], isSpace c = false ∧ c ≠ 'c' ∧ c ≠ quoteChar ∧ c ≠ apostropheChar) ∧
    pyFloat? ['9', '5'] = some 95 ∧ (95 : ℚ) ≤ 100 ∧
    height_to_cm (['9', '5'] ++ [' ', 'c', 'm']) = 0 ∧
    calculate_all_macros 70 (['9', '5'] ++ [' ', 'c', 'm']) 30 false 1 1 =
      (2000, 120, 200, 65) := by
  have hs : ∀ c ∈ ['9', '5'], isSpace c = false ∧ c ≠ 'c' ∧ c ≠ quoteChar ∧ c ≠ apostropheChar := by
    decide
  have hv : (95 : ℚ) ≤ 100 := by norm_num
  have hmain := claim10 ['9', '5'] 95 hs eval_pf95 hv
  exact ⟨hs, eval_pf95, hv, hmain.1, hmain.2 70 30 false 1 1⟩

end Fuel
